import Mathlib

set_option maxRecDepth 40000
set_option allowUnsafeReducibility true
attribute [local semireducible] Rat.add Rat.mul Rat.inv Rat.sub

/-!
Verification development for the transaction reconciliation engine
(`processar_conciliacao` in app.py).  The pipeline is shallowly embedded:
pandas DataFrames become `DataFrame` values (a column list plus typed rows),
float64 amounts become exact rationals obtained through an explicit
round-to-nearest-even binary64 rounding function `round64`, and the in-place
mutation of the input frame is made explicit by returning the final frame
state next to the result.
-/

/-- A calendar date as produced by `pd.to_datetime(..., format='%d/%m/%Y')`. -/
structure CalDate where
  year : Nat
  month : Nat
  day : Nat
deriving DecidableEq

/-- A cell of the 'Data movimento' column: textual before normalization,
a parsed datetime (`none` = NaT) afterwards. -/
inductive DateCell
  | txt (s : String)
  | dt (d : Option CalDate)
deriving DecidableEq

/-- A cell of the 'Valor (R$)' column: either already numeric (float64,
modelled as the exact rational value of the double) or locale-formatted
text.  `none` models NaN. -/
inductive ValorCell
  | txt (s : String)
  | num (q : Option ℚ)
deriving DecidableEq

/-- One input row, restricted to the four columns the program reads. -/
structure RawRow where
  data : DateCell
  valor : ValorCell
  categoria : String
  conta : String
deriving DecidableEq

/-- The DataFrame handed to `processar_conciliacao`: the set of column
names present (checked against the required ones) and the rows. -/
structure DataFrame where
  cols : List String
  rows : List RawRow
deriving DecidableEq

/-- A row that survived normalization: parsed date and parsed amount. -/
structure NormRow where
  date : CalDate
  valor : ℚ
  categoria : String
  conta : String
deriving DecidableEq

/-- One transfer leg inside the matcher: date, absolute amount, account. -/
structure Leg where
  date : CalDate
  absV : ℚ
  conta : String
deriving DecidableEq

/-- A matched saída/entrada pair, as produced by the merge. -/
structure MatchedPair where
  date : CalDate
  absV : ℚ
  origem : String
  destino : String
deriving DecidableEq

/-- One row of the monthly summary (`resultado`): month period
`(year, month)`, source account, destination account, float64 total. -/
structure SummaryRow where
  mes : Nat × Nat
  origem : String
  destino : String
  total : ℚ
deriving DecidableEq

/-- The observable outcome of `processar_conciliacao`: the `None`-return
after `st.error(...)` (carrying the column names the message reports), or
the returned list of output lines. -/
inductive ConcResult
  | schemaError (reported : List String)
  | ok (lines : List String)
deriving DecidableEq

/-! ### binary64 rounding

`pd.to_numeric` and the pandas sum work on float64.  We model a float64
value as the exact rational it denotes and model each float operation as
exact rational arithmetic followed by `round64`, IEEE round-to-nearest,
ties-to-even, in the normal range (all values in this program are far from
overflow and subnormals). -/

/-- Fuelled base-2 logarithm on naturals (`log2Fuel n n` = ⌊log₂ n⌋ for n ≥ 1). -/
def log2Fuel : Nat → Nat → Nat
  | 0, _ => 0
  | fuel + 1, n => if 2 ≤ n then log2Fuel fuel (n / 2) + 1 else 0

/-- ⌊log₂ n⌋ for n ≥ 1 (0 at 0). -/
def natLog2 (n : Nat) : Nat := log2Fuel n n

/-- `q * 2 ^ e` for an integer exponent. -/
def mulPow2 (q : ℚ) (e : Int) : ℚ :=
  if 0 ≤ e then q * (2 : ℚ) ^ e.toNat else q / (2 : ℚ) ^ (-e).toNat

/-- Floor of a rational, computably (`Int.fdiv` is floor division). -/
def ratFloor (x : ℚ) : Int := Int.fdiv x.num (x.den : Int)

/-- ⌊log₂ q⌋ for q > 0 (0 on q ≤ 0). -/
def floorLog2 (q : ℚ) : Int :=
  if q ≤ 0 then 0
  else
    let k : Int := (natLog2 q.num.toNat : Int) - (natLog2 q.den : Int)
    if q < mulPow2 1 k then k - 1 else k

/-- Round a rational to the nearest integer, ties to even. -/
def roundHalfEven (x : ℚ) : Int :=
  let f := ratFloor x
  let r := x - (f : ℚ)
  if r < 1 / 2 then f
  else if 1 / 2 < r then f + 1
  else if f % 2 = 0 then f else f + 1

/-- Round an exact rational to the nearest binary64 value (normal range):
scale the mantissa into [2^52, 2^53), round to integer ties-to-even, scale
back. -/
def round64 (q : ℚ) : ℚ :=
  if q = 0 then 0
  else
    let a := |q|
    let e : Int := floorLog2 a - 52
    let m := roundHalfEven (mulPow2 a (-e))
    let r := mulPow2 (m : ℚ) e
    if q < 0 then -r else r

/-! ### Normalizer -/

/-- Numeric value of a digit string (most significant first). -/
def digitsVal (cs : List Char) : Nat :=
  cs.foldl (fun a c => 10 * a + (c.toNat - 48)) 0

def allDigits (cs : List Char) : Bool := cs.all Char.isDigit

def isLeap (y : Nat) : Bool :=
  y % 4 == 0 && (y % 100 != 0 || y % 400 == 0)

def daysInMonth (y m : Nat) : Nat :=
  if m = 2 then (if isLeap y then 29 else 28)
  else if m = 4 ∨ m = 6 ∨ m = 9 ∨ m = 11 then 30
  else 31

/-- Split a character list on '/'. -/
def splitSlash : List Char → List (List Char)
  | [] => [[]]
  | c :: rest =>
    let r := splitSlash rest
    if c = '/' then [] :: r
    else
      match r with
      | g :: gs => (c :: g) :: gs
      | [] => [[c]]

/-- `pd.to_datetime(s, format='%d/%m/%Y', errors='coerce')` on one cell:
day/month/year separated by '/', numeric components (%d and %m take one or
two digits, %Y up to four), validated against the real calendar (leap
years included); failure gives `none` (NaT). -/
def parseDate (s : String) : Option CalDate :=
  match splitSlash s.data with
  | [d, m, y] =>
    if allDigits d ∧ allDigits m ∧ allDigits y
        ∧ 1 ≤ d.length ∧ d.length ≤ 2 ∧ 1 ≤ m.length ∧ m.length ≤ 2
        ∧ 1 ≤ y.length ∧ y.length ≤ 4 then
      let dd := digitsVal d
      let mm := digitsVal m
      let yy := digitsVal y
      if 1 ≤ yy ∧ 1 ≤ mm ∧ mm ≤ 12 ∧ 1 ≤ dd ∧ dd ≤ daysInMonth yy mm then
        some ⟨yy, mm, dd⟩
      else none
    else none
  | _ => none

/-- Plain decimal parse of an unsigned digit string with at most one '.'
(the core of `pd.to_numeric` for the strings this program produces;
exponent forms, whitespace and inf/nan spellings are outside every use in
this pipeline and are not modelled). -/
def parseUnsigned (cs : List Char) : Option ℚ :=
  let intp := cs.takeWhile Char.isDigit
  let rest := cs.dropWhile Char.isDigit
  match rest with
  | [] => if intp = [] then none else some ((digitsVal intp : ℚ))
  | c :: frac =>
    if c = '.' ∧ allDigits frac ∧ (intp ≠ [] ∨ frac ≠ []) then
      some ((digitsVal intp : ℚ) + (digitsVal frac : ℚ) / (10 : ℚ) ^ frac.length)
    else none

/-- Signed decimal parse. -/
def parseDecimal (cs : List Char) : Option ℚ :=
  match cs with
  | '-' :: rest => (parseUnsigned rest).map (fun q => -q)
  | '+' :: rest => parseUnsigned rest
  | other => parseUnsigned other

/-- Line 31 of app.py: `.str.replace('.', '', regex=False)` then
`.str.replace(',', '.', regex=False)` — delete every period, then turn
every comma into a period. -/
def normalizeAmountChars (cs : List Char) : List Char :=
  (cs.filter (fun c => c ≠ '.')).map (fun c => if c = ',' then '.' else c)

/-- Textual amount normalization followed by `pd.to_numeric(...,
errors='coerce')`: the numeric conversion lands in float64, hence
`round64`. -/
def parseAmountText (s : String) : Option ℚ :=
  (parseDecimal (normalizeAmountChars s.data)).map round64

/-- Column dtype test `pd.api.types.is_numeric_dtype`: a pandas column is
numeric exactly when every cell is numeric (object dtype otherwise). -/
def valorAllNum (f : DataFrame) : Bool :=
  f.rows.all (fun r => match r.valor with | .num _ => true | .txt _ => false)

/-- Amount normalization of one cell.  In a numeric column values pass
through unchanged (line 29).  In an object column textual cells go through
the replace/to_numeric chain (lines 31-32); a numeric cell inside an
object column (a mixed column, which `read_csv` does not produce for this
data and which no claim exercises) is modelled as keeping its value. -/
def normValorCell (allNum : Bool) (c : ValorCell) : Option ℚ :=
  if allNum then
    match c with
    | .num q => q
    | .txt _ => none
  else
    match c with
    | .txt s => parseAmountText s
    | .num q => q

def normDateCell : DateCell → Option CalDate
  | .txt s => parseDate s
  | .dt d => d

/-- The in-place column overwrites of lines 26 and 31-32 on one row. -/
def normalizeRow (allNum : Bool) (r : RawRow) : RawRow :=
  ⟨.dt (normDateCell r.data), .num (normValorCell allNum r.valor), r.categoria, r.conta⟩

/-- `dropna(subset=['Data movimento', 'Valor (R$)'])`: keep rows whose
date and amount both parsed. -/
def rowComplete (r : RawRow) : Bool :=
  match r.data, r.valor with
  | .dt (some _), .num (some _) => true
  | _, _ => false

/-- The state of the input frame after lines 26-34: date and amount
columns overwritten with their parsed values, incomplete rows deleted
in place. -/
def normalizeFrame (f : DataFrame) : DataFrame :=
  ⟨f.cols, (f.rows.map (normalizeRow (valorAllNum f))).filter rowComplete⟩

/-- Extract the normalized rows of a frame (post-`dropna` view). -/
def normRows (f : DataFrame) : List NormRow :=
  f.rows.filterMap (fun r =>
    match r.data, r.valor with
    | .dt (some d), .num (some q) => some ⟨d, q, r.categoria, r.conta⟩
    | _, _ => none)

/-! ### Matcher -/

def saidaLabel : String := "Transferência de Saída"
def entradaLabel : String := "Transferência de Entrada"

def colunasNecessarias : List String :=
  ["Data movimento", "Valor (R$)", "Categoria 1", "Conta bancária"]

/-- Line 37: rows whose category is one of the two transfer labels. -/
def transferencias (rows : List NormRow) : List NormRow :=
  rows.filter (fun r => r.categoria = saidaLabel ∨ r.categoria = entradaLabel)

/-- Line 38: the derived 'Valor Absoluto' column. -/
def toLeg (r : NormRow) : Leg := ⟨r.date, |r.valor|, r.conta⟩

/-- Line 40: the saídas sub-frame, in original order. -/
def saidasOf (rows : List NormRow) : List Leg :=
  ((transferencias rows).filter (fun r => r.categoria = saidaLabel)).map toLeg

/-- Line 41: the entradas sub-frame, in original order. -/
def entradasOf (rows : List NormRow) : List Leg :=
  ((transferencias rows).filter (fun r => r.categoria = entradaLabel)).map toLeg

/-- The grouping key of lines 43-44: `(date, absolute amount)`. -/
def legKey (l : Leg) : CalDate × ℚ := (l.date, l.absV)

/-- Increment the counter of every later element sharing `a`'s key. -/
def bump (a : Leg) (p : Leg × Nat) : Leg × Nat :=
  if legKey p.1 = legKey a then (p.1, p.2 + 1) else p

/-- `groupby(['Data movimento', 'Valor Absoluto']).cumcount()`: pair each
element with the number of earlier elements having the same key. -/
def cumcount : List Leg → List (Leg × Nat)
  | [] => []
  | a :: t => (a, 0) :: (cumcount t).map (bump a)

/-- Inner merge on `(Data movimento, Valor Absoluto, Contador)` (lines
46-48): for each left row, in left order, all right rows with the same
key triple; source account from the saída, destination from the
entrada. -/
def mergeOn : List (Leg × Nat) → List (Leg × Nat) → List MatchedPair
  | [], _ => []
  | p :: t, e =>
    ((e.filter (fun q => legKey q.1 = legKey p.1 ∧ q.2 = p.2)).map
      (fun q => ⟨p.1.date, p.1.absV, p.1.conta, q.1.conta⟩)) ++ mergeOn t e

/-- The matcher: cumcount both sides, then merge. -/
def matchPairs (s e : List Leg) : List MatchedPair :=
  mergeOn (cumcount s) (cumcount e)

def mpKey (p : MatchedPair) : CalDate × ℚ := (p.date, p.absV)

/-- Number of legs carrying a given `(date, absAmount)` key. -/
def countKeyLegs (k : CalDate × ℚ) (l : List Leg) : Nat :=
  (l.filter (fun a => legKey a = k)).length

/-! ### Aggregator -/

abbrev GKey := (Nat × Nat) × String × String

/-- Lines 54-55 grouping key: `(Mês, Conta Origem, Conta Destino)` with
`Mês = to_period('M')`. -/
def gkey (p : MatchedPair) : GKey := ((p.date.year, p.date.month), p.origem, p.destino)

/-- One float64 addition. -/
def flAdd (a x : ℚ) : ℚ := round64 (a + x)

/-- The pandas sum of a float64 column: left-to-right float64
accumulation from 0. -/
def flSum (l : List ℚ) : ℚ := l.foldl flAdd 0

/-- Lexicographic order on characters, then lists (string order). -/
def charListLt : List Char → List Char → Bool
  | [], [] => false
  | [], _ :: _ => true
  | _ :: _, [] => false
  | a :: as, b :: bs =>
    if a.toNat < b.toNat then true
    else if b.toNat < a.toNat then false
    else charListLt as bs

def natPairLt (a b : Nat × Nat) : Bool :=
  Nat.blt a.1 b.1 || (Nat.beq a.1 b.1 && Nat.blt a.2 b.2)

/-- The ascending key order `groupby` sorts by: month period, then source
account, then destination account. -/
def gkeyLe (a b : GKey) : Bool :=
  if a.1 ≠ b.1 then natPairLt a.1 b.1
  else if a.2.1 ≠ b.2.1 then charListLt a.2.1.data b.2.1.data
  else if a.2.2 ≠ b.2.2 then charListLt a.2.2.data b.2.2.data
  else true

/-- The distinct group keys, in the sorted order `groupby` emits. -/
def sortedKeys (pairs : List MatchedPair) : List GKey :=
  List.insertionSort (fun a b => gkeyLe a b = true) ((pairs.map gkey).dedup)

/-- The summary row of one group: the float64 sum of the group's
'Valor Absoluto' values in arrival order. -/
def buildRow (pairs : List MatchedPair) (k : GKey) : SummaryRow :=
  ⟨k.1, k.2.1, k.2.2, flSum ((pairs.filter (fun p => gkey p = k)).map (fun p => p.absV))⟩

/-- Line 55: `groupby(['Mês', 'Conta Origem', 'Conta Destino'])['Valor
Absoluto'].sum().reset_index()`. -/
def aggregate (pairs : List MatchedPair) : List SummaryRow :=
  (sortedKeys pairs).map (buildRow pairs)

/-! ### Reporter -/

def pad2 (n : Nat) : String := if n < 10 then "0" ++ Nat.repr n else Nat.repr n

def pad4 (n : Nat) : String :=
  if n < 10 then "000" ++ Nat.repr n
  else if n < 100 then "00" ++ Nat.repr n
  else if n < 1000 then "0" ++ Nat.repr n
  else Nat.repr n

/-- `strftime('%d/%m/%Y')`. -/
def dateStr (d m y : Nat) : String := pad2 d ++ "/" ++ pad2 m ++ "/" ++ pad4 y

/-- Lines 61-63: month heading from the period's first and last day. -/
def monthHeader (mes : Nat × Nat) : String :=
  "### " ++ dateStr 1 mes.2 mes.1 ++ " a " ++ dateStr (daysInMonth mes.1 mes.2) mes.2 mes.1

/-- `ROUND_HALF_UP` to an integer: nearest, ties away from zero. -/
def roundHalfUpInt (x : ℚ) : Int :=
  if 0 ≤ x then ratFloor (x + 1 / 2) else -(ratFloor (-x + 1 / 2))

/-- Line 66: `Decimal(v).quantize(Decimal('0.01'), rounding=ROUND_HALF_UP)`
on the exact value of the float64 total. -/
def quantize2 (q : ℚ) : ℚ := ((roundHalfUpInt (q * 100) : ℚ)) / 100

/-- Insert a '.' after every third digit, walking the reversed digit
list. -/
def grpRev : List Char → Nat → List Char
  | [], _ => []
  | c :: rest, i =>
    c :: (if i % 3 = 2 ∧ rest ≠ [] then '.' :: grpRev rest (i + 1) else grpRev rest (i + 1))

def groupThousands (ds : List Char) : List Char := (grpRev ds.reverse 0).reverse

/-- Line 67: `f"{v:,.2f}"` followed by the separator swap — thousands
grouped with '.', decimal separator ',', exactly two decimal digits. -/
def formatFixed2 (q : ℚ) : String :=
  let cents := (ratFloor (|q| * 100)).toNat
  (if q < 0 then "-" else "")
    ++ String.mk (groupThousands (Nat.repr (cents / 100)).data)
    ++ "," ++ String.mk [Nat.digitChar (cents / 10 % 10), Nat.digitChar (cents % 10)]

/-- Line 68: one bullet line of the report. -/
def lineOf (r : SummaryRow) : String :=
  "- **Transferência de " ++ r.origem ++ " para " ++ r.destino ++ ":** R$ "
    ++ formatFixed2 (quantize2 r.total)

def monthLe (a b : SummaryRow) : Bool :=
  if a.mes = b.mes then true else natPairLt a.mes b.mes

/-- Lines 60-69: one block per month — heading, bullet lines, divider. -/
def renderMonths : List (Nat × Nat) → List SummaryRow → List String
  | [], _ => []
  | m :: rest, rows =>
    (monthHeader m :: ((rows.filter (fun r => r.mes = m)).map lineOf) ++ ["---"])
      ++ renderMonths rest rows

/-- Lines 58-69: sort by month, then emit month blocks in order. -/
def renderLines (rows : List SummaryRow) : List String :=
  let sorted := List.insertionSort (fun a b => monthLe a b = true) rows
  renderMonths ((sorted.map (fun r => r.mes)).dedup) sorted

/-- The whole of `processar_conciliacao`.  The second component is the
final state of the caller's DataFrame (the function mutates it in place);
the first is the returned value: `None` after `st.error` (modelled as
`schemaError` with the column list the message reports), `[]` when no
pair reconciled, the rendered lines otherwise. -/
def processar (df : DataFrame) : ConcResult × DataFrame :=
  if colunasNecessarias.all (fun c => df.cols.contains c) then
    let nf := normalizeFrame df
    let norm := normRows nf
    let pairs := matchPairs (saidasOf norm) (entradasOf norm)
    if pairs = [] then (.ok [], nf)
    else (.ok (renderLines (aggregate pairs)), nf)
  else (.schemaError colunasNecessarias, df)

/-! ### Matcher lemmas: sequence indices within a key group are 0,1,2,…

`cumcount` attaches to the elements of each `(date, absAmount)` group the
indices `0, 1, …, count-1` in original order; the merge therefore pairs,
for each key, the i-th saída with the i-th entrada, and produces
`min(count saídas, count entradas)` pairs per key. -/

theorem bump_fst (a : Leg) (p : Leg × Nat) : (bump a p).1 = p.1 := by
  unfold bump; split <;> rfl

theorem filter_of_map {α β : Type} (f : α → β) (p : β → Bool) :
    ∀ l : List α, (l.map f).filter p = (l.filter (fun x => p (f x))).map f := by
  intro l
  induction l with
  | nil => rfl
  | cons a t ih =>
    simp only [List.map_cons, List.filter_cons]
    cases hpa : p (f a) <;> simp [hpa, ih]

theorem zip_map_bump (a : Leg) :
    ∀ (as : List Leg) (bs : List Nat), (∀ x ∈ as, legKey x = legKey a) →
      (as.zip bs).map (bump a) = as.zip (bs.map (fun n => n + 1)) := by
  intro as
  induction as with
  | nil => intro bs _; rfl
  | cons x xs ih =>
    intro bs hx
    cases bs with
    | nil => rfl
    | cons b bs' =>
      have hxk : legKey x = legKey a := hx x (List.mem_cons_self x xs)
      have hb : bump a (x, b) = (x, b + 1) := by simp [bump, hxk]
      simp only [List.zip_cons_cons, List.map_cons]
      rw [hb, ih bs' (fun y hy => hx y (List.mem_cons_of_mem _ hy))]

/-- The elements of `cumcount l` whose leg has key `k` are exactly the
key-`k` legs of `l`, in order, paired with `0, 1, …`. -/
theorem cumcount_filter (k : CalDate × ℚ) :
    ∀ l : List Leg,
      (cumcount l).filter (fun p => legKey p.1 = k)
        = (l.filter (fun a => legKey a = k)).zip (List.range (countKeyLegs k l)) := by
  intro l
  induction l with
  | nil => rfl
  | cons a t ih =>
    simp only [cumcount, List.filter_cons]
    rw [filter_of_map]
    simp only [bump_fst]
    by_cases h : legKey a = k
    · have hcnt : countKeyLegs k (a :: t) = countKeyLegs k t + 1 := by
        simp [countKeyLegs, List.filter_cons, h]
      have hmem : ∀ x ∈ t.filter (fun b => legKey b = k), legKey x = legKey a := by
        intro x hxmem
        have hx := List.of_mem_filter hxmem
        simp only [decide_eq_true_eq] at hx
        rw [hx, h]
      rw [ih, zip_map_bump a _ _ hmem, hcnt, List.range_succ_eq_map]
      simp [h, Nat.succ_eq_add_one]
    · have hcnt : countKeyLegs k (a :: t) = countKeyLegs k t := by
        simp [countKeyLegs, List.filter_cons, h]
      have hpt : ∀ p ∈ (cumcount t).filter (fun p => legKey p.1 = k), bump a p = id p := by
        intro p hp
        have hk := List.of_mem_filter hp
        simp only [decide_eq_true_eq] at hk
        unfold bump
        rw [if_neg (fun hc => h (hc.symm.trans hk))]
        rfl
      have hid : ((cumcount t).filter fun p => legKey p.1 = k).map (bump a)
          = (cumcount t).filter fun p => legKey p.1 = k := by
        rw [List.map_congr_left hpt, List.map_id]
      rw [ih] at hid
      rw [ih, hid, hcnt]
      simp [h]

theorem zip_filter_snd {α : Type} (i : Nat) :
    ∀ (as : List α) (bs : List Nat), as.length = bs.length →
      ((as.zip bs).filter (fun p => p.2 = i)).length
        = (bs.filter (fun j => j = i)).length := by
  intro as
  induction as with
  | nil =>
    intro bs h
    cases bs with
    | nil => rfl
    | cons b bs' => simp at h
  | cons x xs ih =>
    intro bs h
    cases bs with
    | nil => simp at h
    | cons b bs' =>
      have h' : xs.length = bs'.length := by simpa using h
      simp only [List.zip_cons_cons, List.filter_cons]
      by_cases hb : b = i
      · simp [hb, ih bs' h']
      · simp [hb, ih bs' h']

theorem range_count (i : Nat) : ∀ n : Nat,
    ((List.range n).filter (fun j => j = i)).length = if i < n then 1 else 0 := by
  intro n
  induction n with
  | zero => simp
  | succ n ih =>
    rw [List.range_succ, List.filter_append, List.length_append, ih]
    simp only [List.filter_cons, List.filter_nil]
    by_cases h : n = i <;> simp [h] <;> split_ifs <;> omega

/-- How many entries of `cumcount e` carry the key-index pair `(k, i)`:
one when `i` is below the key's multiplicity, none otherwise. -/
theorem cumcount_pair_count (k : CalDate × ℚ) (i : Nat) (e : List Leg) :
    ((cumcount e).filter (fun q => legKey q.1 = k ∧ q.2 = i)).length
      = if i < countKeyLegs k e then 1 else 0 := by
  have hsplit : (fun q : Leg × Nat => decide (legKey q.1 = k ∧ q.2 = i))
      = fun q : Leg × Nat => decide (q.2 = i) && decide (legKey q.1 = k) := by
    funext q
    by_cases h1 : legKey q.1 = k <;> by_cases h2 : q.2 = i <;> simp [h1, h2]
  rw [hsplit, ← List.filter_filter, cumcount_filter]
  rw [zip_filter_snd i _ _ (by rw [List.length_range]; rfl)]
  rw [range_count]

/-- The merged pairs with key `k` are counted by summing, over the left
rows with key `k`, the number of right rows sharing their key triple. -/
theorem mergeOn_filter_length (k : CalDate × ℚ) :
    ∀ (s e : List (Leg × Nat)),
      ((mergeOn s e).filter (fun p => mpKey p = k)).length
        = (s.map (fun p => if legKey p.1 = k
            then ((e.filter (fun q => legKey q.1 = legKey p.1 ∧ q.2 = p.2)).length)
            else 0)).sum := by
  intro s e
  induction s with
  | nil => rfl
  | cons p t ih =>
    simp only [mergeOn, List.filter_append, List.length_append, List.map_cons, List.sum_cons]
    rw [ih]
    congr 1
    rw [filter_of_map]
    by_cases h : legKey p.1 = k
    · rw [if_pos h]
      have hconst : (fun q : Leg × Nat =>
          decide (mpKey (⟨p.1.date, p.1.absV, p.1.conta, q.1.conta⟩ : MatchedPair) = k))
          = fun _ : Leg × Nat => true := by
        funext q
        exact decide_eq_true h
      rw [hconst, List.filter_true, List.length_map]
    · rw [if_neg h]
      have hconst : (fun q : Leg × Nat =>
          decide (mpKey (⟨p.1.date, p.1.absV, p.1.conta, q.1.conta⟩ : MatchedPair) = k))
          = fun _ : Leg × Nat => false := by
        funext q
        exact decide_eq_false h
      rw [hconst, List.filter_false]
      simp

theorem sum_map_ite_filter {α : Type} (p : α → Prop) [DecidablePred p] (g : α → Nat) :
    ∀ l : List α,
      (l.map (fun a => if p a then g a else 0)).sum = ((l.filter (fun a => p a)).map g).sum := by
  intro l
  induction l with
  | nil => rfl
  | cons a t ih =>
    simp only [List.map_cons, List.sum_cons, List.filter_cons]
    by_cases h : p a
    · simp [h, ih]
    · simp [h, ih]

theorem zip_map_snd {α : Type} (g : Nat → Nat) :
    ∀ (as : List α) (bs : List Nat), as.length = bs.length →
      (as.zip bs).map (fun p => g p.2) = bs.map g := by
  intro as
  induction as with
  | nil =>
    intro bs h
    cases bs with
    | nil => rfl
    | cons b bs' => simp at h
  | cons x xs ih =>
    intro bs h
    cases bs with
    | nil => simp at h
    | cons b bs' =>
      have h' : xs.length = bs'.length := by simpa using h
      simp only [List.zip_cons_cons, List.map_cons]
      rw [ih bs' h']

theorem sum_range_min (m : Nat) : ∀ n : Nat,
    ((List.range n).map (fun i => if i < m then 1 else 0)).sum = min n m := by
  intro n
  induction n with
  | zero => simp
  | succ n ih =>
    rw [List.range_succ, List.map_append, List.sum_append, ih]
    simp only [List.map_cons, List.map_nil, List.sum_cons, List.sum_nil]
    split_ifs <;> omega

/-- Per key, the matcher emits exactly `min(count saídas, count
entradas)` pairs. -/
theorem matchPairs_min_count (k : CalDate × ℚ) (s e : List Leg) :
    ((matchPairs s e).filter (fun p => mpKey p = k)).length
      = min (countKeyLegs k s) (countKeyLegs k e) := by
  unfold matchPairs
  rw [mergeOn_filter_length]
  have hstep : ∀ p : Leg × Nat,
      (if legKey p.1 = k
        then ((cumcount e).filter (fun q => legKey q.1 = legKey p.1 ∧ q.2 = p.2)).length
        else 0)
      = (if legKey p.1 = k then (if p.2 < countKeyLegs k e then 1 else 0) else 0) := by
    intro p
    by_cases h : legKey p.1 = k
    · rw [if_pos h, if_pos h, h, cumcount_pair_count]
    · rw [if_neg h, if_neg h]
  rw [List.map_congr_left (fun p _ => hstep p)]
  rw [sum_map_ite_filter (fun p : Leg × Nat => legKey p.1 = k)
    (fun p => if p.2 < countKeyLegs k e then 1 else 0)]
  rw [cumcount_filter]
  rw [zip_map_snd (fun i => if i < countKeyLegs k e then 1 else 0) _ _
    (by rw [List.length_range]; rfl)]
  rw [sum_range_min]

/-! ### Aggregator lemmas: the groupby-sum partitions the pairs -/

theorem sum_map_add_q {α : Type} (f g : α → ℚ) :
    ∀ l : List α, (l.map (fun a => f a + g a)).sum = (l.map f).sum + (l.map g).sum := by
  intro l
  induction l with
  | nil => simp
  | cons a t ih =>
    simp only [List.map_cons, List.sum_cons, ih]
    ring

theorem sum_ite_single (c : ℚ) :
    ∀ (ks : List GKey) (k0 : GKey), ks.Nodup → k0 ∈ ks →
      (ks.map (fun k => if k0 = k then c else 0)).sum = c := by
  intro ks
  induction ks with
  | nil =>
    intro k0 _ hmem
    simp at hmem
  | cons k ks' ih =>
    intro k0 hnd hmem
    simp only [List.map_cons, List.sum_cons]
    by_cases h : k0 = k
    · rw [if_pos h]
      have hnotmem : k0 ∉ ks' := by
        rw [h]
        exact (List.nodup_cons.mp hnd).1
      have hz : (ks'.map (fun k => if k0 = k then c else 0)).sum = 0 := by
        apply List.sum_eq_zero
        intro x hx
        obtain ⟨k', hk', hk'x⟩ := List.mem_map.mp hx
        rw [← hk'x, if_neg (fun he => hnotmem (by rw [he]; exact hk'))]
      rw [hz, add_zero]
    · rw [if_neg h, ih k0 (List.nodup_cons.mp hnd).2 (List.mem_of_ne_of_mem h hmem), zero_add]

/-- Summing per group over a duplicate-free, complete key list counts
every element exactly once. -/
theorem partition_sum (f : MatchedPair → ℚ) :
    ∀ (l : List MatchedPair) (ks : List GKey), ks.Nodup → (∀ p ∈ l, gkey p ∈ ks) →
      (ks.map (fun k => ((l.filter (fun p => gkey p = k)).map f).sum)).sum
        = (l.map f).sum := by
  intro l
  induction l with
  | nil =>
    intro ks _ _
    simp
  | cons p t ih =>
    intro ks hnd hmem
    have hsplit : ∀ k ∈ ks,
        (fun k => (((p :: t).filter (fun q => gkey q = k)).map f).sum) k
          = (fun k => (if gkey p = k then f p else 0)
              + ((t.filter (fun q => gkey q = k)).map f).sum) k := by
      intro k _
      simp only
      rw [List.filter_cons]
      by_cases h : gkey p = k
      · simp [h]
      · simp [h]
    rw [List.map_congr_left hsplit, sum_map_add_q,
      sum_ite_single (f p) ks (gkey p) hnd (hmem p (List.mem_cons_self p t)),
      ih ks hnd (fun q hq => hmem q (List.mem_cons_of_mem _ hq))]
    simp

/-- The totals of the aggregate are the per-key float64 sums, listed over
the sorted distinct keys. -/
theorem aggregate_total (pairs : List MatchedPair) :
    (aggregate pairs).map (fun r => r.total)
      = (sortedKeys pairs).map (fun k =>
          flSum ((pairs.filter (fun p => gkey p = k)).map (fun p => p.absV))) := by
  unfold aggregate
  rw [List.map_map]
  rfl

/-! ### Claim C1 -/

/-- C1: for every input row sequence and every key `(date, absAmount)`, the
number of MatchedPairs the Matcher produces for that key equals
`min(count of outgoing legs with that key, count of incoming legs with that
key)`, so legs beyond the shorter side's count appear in no pair. -/
theorem C1_matcher_min_count (rows : List NormRow) (k : CalDate × ℚ) :
    ((matchPairs (saidasOf rows) (entradasOf rows)).filter (fun p => mpKey p = k)).length
      = min (countKeyLegs k (saidasOf rows)) (countKeyLegs k (entradasOf rows)) :=
  matchPairs_min_count k (saidasOf rows) (entradasOf rows)

/-! ### Claim C2 -/

/-- Two outgoing rows O1 (account A), O2 (account B) and two incoming rows
I1 (account C), I2 (account D), all on 01/03/2024 with absolute amount 50,
in input order O1, O2, I1, I2. -/
def c2Rows : List NormRow :=
  [⟨⟨2024, 3, 1⟩, -50, saidaLabel, "A"⟩, ⟨⟨2024, 3, 1⟩, -50, saidaLabel, "B"⟩,
   ⟨⟨2024, 3, 1⟩, 50, entradaLabel, "C"⟩, ⟨⟨2024, 3, 1⟩, 50, entradaLabel, "D"⟩]

/-- C2: with two same-day same-amount transfers on each side, the Matcher
joins on equal per-group sequence index, producing (O1,I1) and (O2,I2) in
that order — never the crossed pairing (O1,I2)/(O2,I1). -/
theorem C2_duplicate_same_day_pairing :
    matchPairs (saidasOf c2Rows) (entradasOf c2Rows)
      = [⟨⟨2024, 3, 1⟩, 50, "A", "C"⟩, ⟨⟨2024, 3, 1⟩, 50, "B", "D"⟩]
    ∧ matchPairs (saidasOf c2Rows) (entradasOf c2Rows)
      ≠ [⟨⟨2024, 3, 1⟩, 50, "A", "D"⟩, ⟨⟨2024, 3, 1⟩, 50, "B", "C"⟩] := by
  decide

/-! ### Claim C3 -/

/-- Two matched pairs in the single group (March 2024, A, B), whose
absAmounts are the binary64 values of 0.1 and 0.2 — exactly what
`parseAmountText` produces for the inputs "0,1" and "0,2". -/
def c3Pairs : List MatchedPair :=
  [⟨⟨2024, 3, 1⟩, 3602879701896397 / 36028797018963968, "A", "B"⟩,
   ⟨⟨2024, 3, 2⟩, 3602879701896397 / 18014398509481984, "A", "B"⟩]

/-- C3 counterexample: the group's totalAmount is the float64 sum
`fl(0.1 + 0.2)`, which is NOT equal to the exact mathematical sum of the
group's two absAmount values — the claimed exact decimal arithmetic does
not hold (line 55 sums a float64 column). -/
theorem C3_counterexample :
    (aggregate c3Pairs).map (fun r => r.total) = [1351079888211149 / 4503599627370496]
    ∧ (1351079888211149 / 4503599627370496 : ℚ)
        ≠ 3602879701896397 / 36028797018963968 + 3602879701896397 / 18014398509481984
    ∧ parseAmountText "0,1" = some (3602879701896397 / 36028797018963968)
    ∧ parseAmountText "0,2" = some (3602879701896397 / 18014398509481984) := by
  decide

/-- C3 amended: the Aggregator emits exactly one row per distinct
(month, sourceAccount, destAccount) key, and each row's totalAmount is the
binary64 left-to-right accumulation of its group's absAmount values in
arrival order — not, in general, their exact sum. -/
theorem C3_amended_float_totals (pairs : List MatchedPair) (row : SummaryRow)
    (hrow : row ∈ aggregate pairs) :
    row.total = flSum ((pairs.filter
        (fun p => gkey p = ((row.mes, row.origem, row.destino) : GKey))).map (fun p => p.absV))
    ∧ ((aggregate pairs).map (fun r => ((r.mes, r.origem, r.destino) : GKey))).Nodup := by
  constructor
  · obtain ⟨k, hk, hb⟩ := List.mem_map.mp hrow
    subst hb
    obtain ⟨mk, ok, dk⟩ := k
    rfl
  · have hmapid : (aggregate pairs).map (fun r => ((r.mes, r.origem, r.destino) : GKey))
        = sortedKeys pairs := by
      unfold aggregate
      rw [List.map_map]
      have hco : ((fun r : SummaryRow => ((r.mes, r.origem, r.destino) : GKey))
          ∘ buildRow pairs) = id := by
        funext k
        obtain ⟨mk, ok, dk⟩ := k
        rfl
      rw [hco, List.map_id]
    rw [hmapid]
    exact (List.perm_insertionSort _ _).nodup_iff.mpr (List.nodup_dedup _)

/-- C3 witness: on a singleton group the theorem applies and the float64
accumulation of one value starting at 0 is that value. -/
theorem C3_witness :
    (⟨(2024, 3), "A", "B", (5 : ℚ)⟩ : SummaryRow).total
      = flSum ((([⟨⟨2024, 3, 1⟩, (5 : ℚ), "A", "B"⟩] : List MatchedPair).filter
          (fun p => gkey p = (((2024, 3), "A", "B") : GKey))).map (fun p => p.absV)) :=
  (C3_amended_float_totals [⟨⟨2024, 3, 1⟩, (5 : ℚ), "A", "B"⟩]
    ⟨(2024, 3), "A", "B", (5 : ℚ)⟩ (by decide)).1

/-! ### Claim C4 -/

/-- A frame whose single transfer is a saída/entrada pair with the given
textual amount, dated 01/03/2024, from account A to account B. -/
def c4Frame (amt : String) : DataFrame :=
  ⟨colunasNecessarias,
    [⟨.txt "01/03/2024", .txt amt, saidaLabel, "A"⟩,
     ⟨.txt "01/03/2024", .txt amt, entradaLabel, "B"⟩]⟩

/-- C4 counterexample: the claim says a total of 2.005 renders as 2.01.
The totals are float64: the decimal input 2.005 becomes the nearest double
2257429313219461/2^50 = 2.00499999999999989…, strictly below the half-cent,
so the program renders "2,00"; `quantize2` applied to the exact decimal
2.005 would indeed give 2.01, but that value never reaches it. -/
theorem C4_counterexample :
    (processar (c4Frame "2,005")).1 = ConcResult.ok
      ["### 01/03/2024 a 31/03/2024", "- **Transferência de A para B:** R$ 2,00", "---"]
    ∧ parseAmountText "2,005" = some (2257429313219461 / 1125899906842624)
    ∧ quantize2 (2257429313219461 / 1125899906842624) = 2
    ∧ (2257429313219461 / 1125899906842624 : ℚ) ≠ 2005 / 1000
    ∧ quantize2 (2005 / 1000) = 201 / 100 := by
  decide

/-- C4 amended: the Reporter rounds the exact value of the float64 total to
two decimals with round-half-up, ties away from zero — never half-to-even:
a total of 0.125 (exactly representable) renders "0,13" where half-to-even
would give 0,12, and a negative tie rounds away from zero; but the total
obtained from the decimal input 2.005 is the nearest double, slightly below
the tie, so it renders "2,00"; 2.004 renders "2,00". -/
theorem C4_amended_rounding :
    (processar (c4Frame "0,125")).1 = ConcResult.ok
      ["### 01/03/2024 a 31/03/2024", "- **Transferência de A para B:** R$ 0,13", "---"]
    ∧ (processar (c4Frame "2,004")).1 = ConcResult.ok
      ["### 01/03/2024 a 31/03/2024", "- **Transferência de A para B:** R$ 2,00", "---"]
    ∧ quantize2 (1 / 8) = 13 / 100
    ∧ quantize2 (1 / 8) ≠ 12 / 100
    ∧ quantize2 (-(1 / 8)) = -(13 / 100) := by
  decide

/-! ### Claim C5 -/

/-- Frame with one matched transfer of 1234.5 (text "-1.234,5" / "1.234,5",
thousands separator in the input). -/
def c5FrameA : DataFrame :=
  ⟨colunasNecessarias,
    [⟨.txt "05/03/2024", .txt "-1.234,5", saidaLabel, "A"⟩,
     ⟨.txt "05/03/2024", .txt "1.234,5", entradaLabel, "B"⟩]⟩

/-- Frame with one matched transfer of 0.5. -/
def c5FrameB : DataFrame :=
  ⟨colunasNecessarias,
    [⟨.txt "01/01/2024", .txt "-0,5", saidaLabel, "A"⟩,
     ⟨.txt "01/01/2024", .txt "0,5", entradaLabel, "B"⟩]⟩

/-- C5: the Reporter renders amounts with '.' as thousands separator, ','
as decimal separator and exactly two decimal digits: 1234.5 renders as
"1.234,50" and 0.5 as "0,50", both through the whole pipeline and at the
formatting function itself. -/
theorem C5_formatting :
    (processar c5FrameA).1 = ConcResult.ok
      ["### 01/03/2024 a 31/03/2024", "- **Transferência de A para B:** R$ 1.234,50", "---"]
    ∧ (processar c5FrameB).1 = ConcResult.ok
      ["### 01/01/2024 a 31/01/2024", "- **Transferência de A para B:** R$ 0,50", "---"]
    ∧ formatFixed2 (quantize2 (2469 / 2)) = "1.234,50"
    ∧ formatFixed2 (quantize2 (1 / 2)) = "0,50" := by
  decide

/-! ### Claim C6 -/

/-- A frame exposing three of the four required columns — only
'Conta bancária' is missing. -/
def c6MissingFrame : DataFrame :=
  ⟨["Data movimento", "Valor (R$)", "Categoria 1"],
   [⟨.txt "01/03/2024", .txt "-100", saidaLabel, "A"⟩]⟩

/-- The required fields absent from a frame — what the claim says the
error reports. -/
def missingCols (df : DataFrame) : List String :=
  colunasNecessarias.filter (fun c => ¬ df.cols.contains c)

/-- C6 counterexample: with exactly one field missing, the error reports
the constant full required list (all four names), not the names of the
missing fields (which would be just "Conta bancária"). -/
theorem C6_counterexample :
    (processar c6MissingFrame).1 = ConcResult.schemaError colunasNecessarias
    ∧ missingCols c6MissingFrame = ["Conta bancária"]
    ∧ colunasNecessarias ≠ ["Conta bancária"] := by
  decide

/-- C6 amended: when any required field is absent the pipeline halts with a
SchemaError whose report is the full required-field list (which contains
the missing names but does not single them out) and yields no output
lines; when all four fields are present no SchemaError is ever produced. -/
theorem C6_amended_schema (df : DataFrame) :
    (colunasNecessarias.all (fun c => df.cols.contains c) = false →
        (processar df).1 = ConcResult.schemaError colunasNecessarias)
    ∧ (colunasNecessarias.all (fun c => df.cols.contains c) = true →
        ∀ r, (processar df).1 ≠ ConcResult.schemaError r) := by
  constructor
  · intro h
    have h' : ¬ (colunasNecessarias.all (fun c => df.cols.contains c) = true) := by
      intro hc
      rw [h] at hc
      exact Bool.noConfusion hc
    simp only [processar]
    rw [if_neg h']
  · intro h r
    simp only [processar]
    rw [if_pos h]
    by_cases hp : matchPairs (saidasOf (normRows (normalizeFrame df)))
        (entradasOf (normRows (normalizeFrame df))) = []
    · rw [if_pos hp]
      simp
    · rw [if_neg hp]
      simp

/-- C6 witness: the amended theorem applied to the concrete frame missing
'Conta bancária'. -/
theorem C6_witness :
    (processar c6MissingFrame).1 = ConcResult.schemaError colunasNecessarias :=
  (C6_amended_schema c6MissingFrame).1 (by decide)

/-! ### Claim C7 -/

/-- A well-formed single-row frame (all four columns, one parsable saída
row with a textual amount). -/
def c7Frame : DataFrame :=
  ⟨colunasNecessarias, [⟨.txt "01/03/2024", .txt "-100,00", saidaLabel, "A"⟩]⟩

/-- C7 counterexample: the pipeline does not leave its input unchanged —
lines 26, 31-32 and 34 overwrite the date and amount columns and delete
rows in place, so after a run the caller's frame differs from the input. -/
theorem C7_counterexample : (processar c7Frame).2 ≠ c7Frame := by
  decide

/-- C7 amended: the pipeline's outcome is a function of the input frame
alone (no hidden process-wide state is consulted), but it mutates its
argument: with the required columns present the final frame state is
exactly the normalized frame (columns overwritten with parsed values,
unparsable rows dropped) — the matching, aggregation and reporting stages
add nothing to that mutation — and on a schema failure the frame is left
untouched. -/
theorem C7_amended_state (df : DataFrame) :
    (colunasNecessarias.all (fun c => df.cols.contains c) = true →
        (processar df).2 = normalizeFrame df)
    ∧ (colunasNecessarias.all (fun c => df.cols.contains c) = false →
        (processar df).2 = df) := by
  constructor
  · intro h
    simp only [processar]
    rw [if_pos h]
    by_cases hp : matchPairs (saidasOf (normRows (normalizeFrame df)))
        (entradasOf (normRows (normalizeFrame df))) = []
    · rw [if_pos hp]
    · rw [if_neg hp]
  · intro h
    have h' : ¬ (colunasNecessarias.all (fun c => df.cols.contains c) = true) := by
      intro hc
      rw [h] at hc
      exact Bool.noConfusion hc
    simp only [processar]
    rw [if_neg h']

/-- C7 witness: the amended theorem at the concrete frame above. -/
theorem C7_witness : (processar c7Frame).2 = normalizeFrame c7Frame :=
  (C7_amended_state c7Frame).1 (by decide)

/-! ### Claim C8 -/

/-- A frame with every required column and exactly one saída with no
matching entrada. -/
def c8Frame : DataFrame :=
  ⟨colunasNecessarias, [⟨.txt "01/03/2024", .txt "-100", saidaLabel, "A"⟩]⟩

/-- C8: if all required fields are present and the Matcher yields zero
pairs, the pipeline returns the ordinary empty output `ok []` — a
different constructor from every `schemaError`, so the caller can tell the
two outcomes apart. -/
theorem C8_empty_result (df : DataFrame)
    (h1 : colunasNecessarias.all (fun c => df.cols.contains c) = true)
    (h2 : matchPairs (saidasOf (normRows (normalizeFrame df)))
            (entradasOf (normRows (normalizeFrame df))) = []) :
    (processar df).1 = ConcResult.ok []
    ∧ ∀ r, ConcResult.ok ([] : List String) ≠ ConcResult.schemaError r := by
  refine ⟨?_, fun r hr => ConcResult.noConfusion hr⟩
  simp only [processar]
  rw [if_pos h1, if_pos h2]

/-- C8 witness: the theorem at the one-unmatched-saída frame. -/
theorem C8_witness :
    (processar c8Frame).1 = ConcResult.ok []
    ∧ ∀ r, ConcResult.ok ([] : List String) ≠ ConcResult.schemaError r :=
  C8_empty_result c8Frame (by decide) (by decide)

/-! ### Claim C9 -/

/-- Two matched pairs in one (March 2024, A, B) group whose absAmounts are
the binary64 values of 0.1 and 0.2. -/
def c9Pairs : List MatchedPair :=
  [⟨⟨2024, 3, 1⟩, 3602879701896397 / 36028797018963968, "A", "B"⟩,
   ⟨⟨2024, 3, 2⟩, 3602879701896397 / 18014398509481984, "A", "B"⟩]

/-- C9 counterexample: the total of the single summary row is the float64
sum `fl(0.1 + 0.2)`, so the sum of `totalAmount` over the rows differs
from the exact sum of `absAmount` over the pairs. -/
theorem C9_counterexample :
    ((aggregate c9Pairs).map (fun r => r.total)).sum ≠ (c9Pairs.map (fun p => p.absV)).sum := by
  decide

/-- C9 amended: every pair is counted in exactly one summary row — the sum
of totalAmount over all rows equals the sum over the distinct group keys
of the float64 accumulation of that group's absAmounts — so whenever each
group's accumulation incurs no rounding, conservation is exact. -/
theorem C9_amended_conservation (pairs : List MatchedPair)
    (h : ∀ k ∈ (pairs.map gkey).dedup,
        flSum ((pairs.filter (fun p => gkey p = k)).map (fun p => p.absV))
          = ((pairs.filter (fun p => gkey p = k)).map (fun p => p.absV)).sum) :
    ((aggregate pairs).map (fun r => r.total)).sum = (pairs.map (fun p => p.absV)).sum := by
  rw [aggregate_total]
  have hperm : List.Perm (sortedKeys pairs) ((pairs.map gkey).dedup) :=
    List.perm_insertionSort _ _
  rw [List.Perm.sum_eq (List.Perm.map _ hperm)]
  rw [List.map_congr_left h]
  exact partition_sum (fun p => p.absV) pairs _ (List.nodup_dedup _)
    (fun p hp => List.mem_dedup.mpr (List.mem_map_of_mem gkey hp))

/-- C9 witness: with integer amounts the per-group accumulation is exact
and conservation holds on the nose. -/
theorem C9_witness :
    ((aggregate [⟨⟨2024, 3, 1⟩, (100 : ℚ), "A", "B"⟩, ⟨⟨2024, 4, 2⟩, (50 : ℚ), "A", "B"⟩]).map
        (fun r => r.total)).sum
      = (([⟨⟨2024, 3, 1⟩, (100 : ℚ), "A", "B"⟩, ⟨⟨2024, 4, 2⟩, (50 : ℚ), "A", "B"⟩]
            : List MatchedPair).map (fun p => p.absV)).sum :=
  C9_amended_conservation _ (by decide)

/-! ### Claim C10 -/

/-- C10: textual amount normalization deletes every '.' and then turns ','
into '.', so a textual amount using '.' as its decimal separator parses as
the digit concatenation: "1.5" parses to 15, not to the denoted 1.5; a
locale-formatted "1.234,5" parses to 1234.5. -/
theorem C10_amount_normalization :
    parseAmountText "1.5" = some 15
    ∧ parseAmountText "1.5" ≠ some (3 / 2)
    ∧ normalizeAmountChars ("1.5").data = ['1', '5']
    ∧ parseAmountText "1.234,5" = some (2469 / 2) := by
  decide
